import Mathlib

/-!
Verification development for the sigqc PCA core.

The Python source (sigqc_pca.py, sigqc_hmethod.py, sigqc_implementpca.py) is
shallowly embedded here. Numpy 2-D arrays become `Matrix (Fin m) (Fin n) α`
over a linear ordered field (instantiated at `ℚ` for concrete evaluation);
`np.sqrt` / `np.std` occur only in branches that the verified claims never
evaluate, so the square-root operation is threaded through as an explicit
function parameter `sqrtFn` to keep every definition executable.
The reference-snapshot file of sigqc_implementpca.py is embedded at line
level: each physical line is either marker/flag text or a row of numbers.
-/

section Util

variable {β : Type} [DecidableEq β]

/-- Auxiliary for substring search: does the second list start with the first? -/
def seqStarts : List β → List β → Bool
  | [], _ => true
  | _ :: _, [] => false
  | a :: as, b :: bs => if a = b then seqStarts as bs else false

/-- Auxiliary for substring search: does the needle occur as a contiguous
subsequence of the haystack? -/
def seqContains (needle : List β) : List β → Bool
  | [] => seqStarts needle []
  | b :: bs => seqStarts needle (b :: bs) || seqContains needle bs

/-- Embedding of the Python substring test `needle in hay` on strings, as used
by sigqc_implementpca.py for its section-marker scan and for the correlation
flag test `'True' in corr_matrix` (line 126). -/
def strIn (needle hay : String) : Bool := seqContains needle.data hay.data

end Util

section PCA

variable {α : Type} [LinearOrderedField α]
variable {m n k p q u v : ℕ}

/-- Embedding of `np.mean(i_dataset, axis=0)`: the vector of per-column means
of an `m × n` dataset (sigqc_pca.py line 57 and line 138). -/
def colMeans (D : Matrix (Fin m) (Fin n) α) : Fin n → α :=
  fun j => (∑ i, D i j) / (m : α)

/-- Embedding of `np.std(a, axis=0)` (population standard deviation, ddof=0),
used by the correlation branch of `getCovariance` (sigqc_pca.py line 64).
The square root is the explicit parameter `sqrtFn`, since the claims under
verification never evaluate this branch. -/
def npStd (sqrtFn : α → α) (A : Matrix (Fin m) (Fin n) α) : Fin n → α :=
  fun j => sqrtFn ((∑ i, (A i j - colMeans A j) ^ 2) / (m : α))

/-- Embedding of `getCovariance(i_dataset, corr_matrix, scale_by_nrows,
center_around_mean)` (sigqc_pca.py lines 33-75).  If `center_around_mean`,
the per-column means are subtracted (lines 56-60) and, if additionally
`corr_matrix`, each column is divided by its standard deviation (lines 63-65);
otherwise the dataset is used as is (line 67).  The result is `aᵀ · a`
(line 69), divided entrywise by `m - 1` when `scale_by_nrows` (line 72). -/
def getCovariance (sqrtFn : α → α) (D : Matrix (Fin m) (Fin n) α)
    (corr_matrix scale_by_nrows center_around_mean : Bool) :
    Matrix (Fin n) (Fin n) α :=
  let a : Matrix (Fin m) (Fin n) α :=
    if center_around_mean then
      let c : Matrix (Fin m) (Fin n) α := Matrix.of fun i j => D i j - colMeans D j
      if corr_matrix then Matrix.of fun i j => c i j / npStd sqrtFn c j else c
    else D
  let dotresult := a.transpose * a
  if scale_by_nrows then Matrix.of fun s t => dotresult s t / ((m : α) - 1)
  else dotresult

/-- Embedding of `sortEigen(i_evals, i_evects)` (sigqc_pca.py lines 99-112):
`indeces = i_evals.argsort()[::-1]` is an ascending argsort reversed into
descending order (`np.argsort`'s tie order is solver-dependent; the embedding
fixes the monotone sorting permutation `Tuple.sort`), and both the eigenvalue
vector and the eigenvector columns are re-indexed by it. -/
def sortEigen (evals : Fin k → α) (evecs : Matrix (Fin n) (Fin k) α) :
    (Fin k → α) × Matrix (Fin n) (Fin k) α :=
  let indeces : Equiv.Perm (Fin k) := Fin.revPerm.trans (Tuple.sort evals)
  (fun j => evals (indeces j), Matrix.of fun i j => evecs i (indeces j))

/-- Embedding of `getPCScores(i_dataset, i_evals, i_evects, n_pcs)`
(sigqc_pca.py lines 114-144).  The source computes a default for `n_pcs`
(line 135) and allocates a zero array with it (line 137), but then overwrites
`pc_scores` wholesale with `np.dot(a, i_evects)` over ALL eigenvector columns
(line 142); `i_evals` is likewise never read.  Both parameters are therefore
bound here but unused, exactly as in the source. -/
def getPCScores (D : Matrix (Fin m) (Fin n) α) (_i_evals : Fin k → α)
    (evecs : Matrix (Fin n) (Fin p) α) (_n_pcs : Option ℕ) :
    Matrix (Fin m) (Fin p) α :=
  (Matrix.of fun i j => D i j - colMeans D j) * evecs

/-- Embedding of the inner `for j in range(...)` loop of `getTotalVariance`
(sigqc_pca.py lines 166-170) for one fixed row `i`: at the first cell with
`A i j ≠ A j i` the loop breaks, leaving the flag as it was; every comparison
that succeeds before that sets the flag to `true`. -/
def rowScanAux (A : Matrix (Fin k) (Fin k) α) (i : Fin k) :
    List (Fin k) → Bool → Bool
  | [], flag => flag
  | j :: js, flag => if A i j ≠ A j i then flag else rowScanAux A i js true

/-- Embedding of the full double loop of `getTotalVariance` (sigqc_pca.py
lines 164-170): the `isCovMatrix` flag threaded over all rows, starting
`false`.  Note the source's `break` leaves the outer loop running and never
resets the flag. -/
def isCovScan (A : Matrix (Fin k) (Fin k) α) : Bool :=
  (List.finRange k).foldl (fun flag i => rowScanAux A i (List.finRange k) flag) false

/-- Embedding of `getTotalVariance(i_array)` (sigqc_pca.py lines 146-176):
if the input is square, the double symmetry-scan loop decides `isCovMatrix`;
if the flag ends up `true` the sum of the input's own diagonal is returned,
otherwise the input is treated as a raw dataset and the sum of the diagonal of
`getCovariance` (with default arguments) is returned. -/
def getTotalVariance (sqrtFn : α → α) (A : Matrix (Fin m) (Fin n) α) : α :=
  if h : m = n then
    let B : Matrix (Fin m) (Fin m) α := Matrix.of fun i j => A i (Fin.cast h j)
    if isCovScan B then ∑ i, B i i
    else ∑ t, getCovariance sqrtFn A false true true t t
  else ∑ t, getCovariance sqrtFn A false true true t t

/-- Embedding of `getCumPropVar(i_dataset, i_evals, i_evects, n_pcs)`
(sigqc_pca.py lines 178-205): `n_pcs` defaults to the number of eigenvector
columns (line 200), and the loop accumulates `val / tot_var` over the first
`n_pcs` eigenvalues (lines 203-204). -/
def getCumPropVar (sqrtFn : α → α) (D : Matrix (Fin m) (Fin n) α)
    (evals : Fin k → α) (_evecs : Matrix (Fin q) (Fin p) α)
    (n_pcs : Option ℕ) : α :=
  let npcs := n_pcs.getD p
  let tot := getTotalVariance sqrtFn D
  ((List.finRange k).take npcs).foldl (fun acc j => acc + evals j / tot) 0

end PCA

section HMethod

variable {α : Type} [LinearOrderedField α]
variable {n k : ℕ}

/-- Embedding of `calcMagnitude(i_vector)` (sigqc_hmethod.py lines 70-75):
`np.sqrt(sum(i_vector**2))`, with the square root abstracted as `sqrtFn`. -/
def calcMagnitude (sqrtFn : α → α) (w : Fin n → α) : α := sqrtFn (∑ i, w i ^ 2)

/-- Embedding of the eigenvector-weighting loop of `hMethod`
(sigqc_hmethod.py lines 53-55): column `i` of the eigenvector matrix is
multiplied elementwise by eigenvalue `i`. -/
def hMethodWeightEvecs (evals : Fin k → α) (evecs : Matrix (Fin n) (Fin k) α) :
    Matrix (Fin n) (Fin k) α :=
  Matrix.of fun r c => evecs r c * evals c

/-- Embedding of `np.sum(test_evecs, axis=0)` (sigqc_hmethod.py lines 58-59):
the "total eigenvector" the code actually computes, namely the vector of
per-COLUMN sums of the weighted eigenvector matrix. -/
def hMethodTotalEvec (W : Matrix (Fin n) (Fin k) α) : Fin k → α :=
  fun c => ∑ r, W r c

/-- Definition following the spec's words, for comparison with
`hMethodTotalEvec`: the total eigenvector described by the spec is the SUM of
the eigenvalue-weighted eigenvector columns, i.e. component `f` is
`∑ j, eigenvalue j * eigenvector j f`. -/
def totalEvecSpecSum (evals : Fin k → α) (evecs : Matrix (Fin n) (Fin k) α) :
    Fin n → α :=
  fun f => ∑ j, evals j * evecs f j

end HMethod

section ImplementPCA

variable {α : Type} [LinearOrderedField α]
variable {n p u : ℕ}

/-- Embedding of the scoring step of `implementPCA` (sigqc_implementpca.py
lines 126-129): with the parsed reference snapshot fields (`avgvec`, `stddev`,
the raw text of the correlation-flag row, and the eigenvector matrix), the PC
scores are `np.dot((dataset-avgvec)/stddev, evecs)` when `'True'` occurs in
the flag text, and `np.dot(dataset-avgvec, evecs)` otherwise. -/
def implementPCAScores (dataset : Matrix (Fin u) (Fin n) α)
    (avgvec stddev : Fin n → α) (corr_matrix : String)
    (evecs : Matrix (Fin n) (Fin p) α) : Matrix (Fin u) (Fin p) α :=
  if strIn "True" corr_matrix then
    (Matrix.of fun i j => (dataset i j - avgvec j) / stddev j) * evecs
  else
    (Matrix.of fun i j => dataset i j - avgvec j) * evecs

end ImplementPCA

section SnapshotCodec

variable {α : Type}

/-- One physical line of a reference-snapshot file, embedded at line level:
either marker/flag text, or a comma-separated row of numbers already parsed
into a list.  A numeric row consists only of digits, signs, dots, exponent
letters and commas, so it can never contain one of the all-caps section
markers nor the flag word `True`; marker search on a `vec` line is therefore
`false` by construction. -/
inductive RefLine (α : Type) where
  | text (s : String)
  | vec (w : List α)
deriving DecidableEq

/-- Embedding of the Python membership test `marker in row` on one line of the
reference file (sigqc_implementpca.py lines 91-113). -/
def lineContains (marker : String) : RefLine α → Bool
  | .text s => strIn marker s
  | .vec _ => false

/-- Embedding of `np.array(row.split(','), dtype=float)` (sigqc_implementpca.py
lines 93, 98, 108, 114): a numeric row parses to its numbers; applying it to a
marker/flag text row raises a `ValueError` in the source, embedded as `none`. -/
def lineVec : RefLine α → Option (List α)
  | .text _ => none
  | .vec w => some w

/-- Embedding of the inner `while (marker not in row): row = next(f)` loops of
`implementPCA`'s reference parse: starting from the current row, advance until
a row containing the marker is found; return that row and the lines after it.
Running off the end of the file models the `StopIteration` raised by
`next(f)`. -/
def skipUntil (marker : String) : List (RefLine α) → Option (RefLine α × List (RefLine α))
  | [] => none
  | l :: ls => if lineContains marker l then some (l, ls) else skipUntil marker ls

/-- Embedding of one value section of `implementPCA`'s parse (lines 91-95,
96-100, 106-110 of sigqc_implementpca.py): read the next row as a numeric
vector (a text row there raises `ValueError`), then skip to the row containing
the end marker. -/
def scanSection (marker : String) :
    List (RefLine α) → Option (List α × RefLine α × List (RefLine α))
  | [] => none
  | r :: rs =>
    match lineVec r with
    | none => none
    | some w => (skipUntil marker (r :: rs)).map fun er => (w, er.1, er.2)

/-- Embedding of the correlation-flag section (sigqc_implementpca.py lines
101-105): `corr_matrix = str(row)` captures the raw text of the row after the
`ISCORRMATRIX` marker, then the loop skips to the row containing
`ENDCORRMATRIX`.  A numeric row's text contains no letters, embedded as the
empty string, which in particular cannot contain `True`. -/
def scanFlag : List (RefLine α) → Option (String × RefLine α × List (RefLine α))
  | [] => none
  | r :: rs =>
    let s := match r with | .text s0 => s0 | .vec _ => ""
    (skipUntil "ENDCORRMATRIX" (r :: rs)).map fun er => (s, er.1, er.2)

/-- Embedding of the eigenvector section (sigqc_implementpca.py lines
111-115): rows are appended to the accumulated `evecs` list until a row
containing `ENDEVECS` appears; a text row before that raises `ValueError`
inside `np.array`, and hitting the end of file models `StopIteration`. -/
def scanEvecs : List (RefLine α) → List (List α) →
    Option (List (List α) × RefLine α × List (RefLine α))
  | [], _ => none
  | r :: rs, acc =>
    if lineContains "ENDEVECS" r then some (acc, r, rs)
    else
      match lineVec r with
      | none => none
      | some w => scanEvecs rs (acc ++ [w])

/-- Parse state of `implementPCA`'s reference-file loop (sigqc_implementpca.py
lines 86-115).  In the source `avgvec` and `evals` are initialised to `None`
and `evecs` to `[]`, while `stddev` and `corr_matrix` are local variables that
are never initialised at all; `none` for the former pair models the value
`None`, `none` for the latter pair models the unassigned local (whose use
raises `UnboundLocalError`). -/
structure ParseState (α : Type) where
  avgvec : Option (List α)
  stddev : Option (List α)
  corr : Option String
  evals : Option (List α)
  evecs : List (List α)
deriving DecidableEq

/-- Embedding of the `BEGINAVGVECTOR` branch (sigqc_implementpca.py lines
91-95) of one iteration of the parse loop: if the current row contains the
marker, consume the section; otherwise leave everything unchanged.  Returns
the current row after the branch (the end-marker row when the section fired,
which the source then re-tests against the remaining branches), the remaining
lines, and the updated state. -/
def stepAvg (l : RefLine α) (ls : List (RefLine α)) (st : ParseState α) :
    Option (RefLine α × List (RefLine α) × ParseState α) :=
  if lineContains "BEGINAVGVECTOR" l then
    (scanSection "ENDAVGVECTOR" ls).map fun wer =>
      (wer.2.1, wer.2.2, { st with avgvec := some wer.1 })
  else some (l, ls, st)

/-- Embedding of the `BEGINSTANDDEV` branch (sigqc_implementpca.py lines
96-100); same shape as `stepAvg`. -/
def stepStd (l : RefLine α) (ls : List (RefLine α)) (st : ParseState α) :
    Option (RefLine α × List (RefLine α) × ParseState α) :=
  if lineContains "BEGINSTANDDEV" l then
    (scanSection "ENDSTANDDEV" ls).map fun wer =>
      (wer.2.1, wer.2.2, { st with stddev := some wer.1 })
  else some (l, ls, st)

/-- Embedding of the `ISCORRMATRIX` branch (sigqc_implementpca.py lines
101-105). -/
def stepCorr (l : RefLine α) (ls : List (RefLine α)) (st : ParseState α) :
    Option (RefLine α × List (RefLine α) × ParseState α) :=
  if lineContains "ISCORRMATRIX" l then
    (scanFlag ls).map fun ser =>
      (ser.2.1, ser.2.2, { st with corr := some ser.1 })
  else some (l, ls, st)

/-- Embedding of the `BEGINEVALS` branch (sigqc_implementpca.py lines
106-110). -/
def stepEvals (l : RefLine α) (ls : List (RefLine α)) (st : ParseState α) :
    Option (RefLine α × List (RefLine α) × ParseState α) :=
  if lineContains "BEGINEVALS" l then
    (scanSection "ENDEVALS" ls).map fun wer =>
      (wer.2.1, wer.2.2, { st with evals := some wer.1 })
  else some (l, ls, st)

/-- Embedding of the `BEGINEVECS` branch (sigqc_implementpca.py lines
111-115); rows accumulate onto the `evecs` list carried in the state. -/
def stepEvecs (l : RefLine α) (ls : List (RefLine α)) (st : ParseState α) :
    Option (RefLine α × List (RefLine α) × ParseState α) :=
  if lineContains "BEGINEVECS" l then
    (scanEvecs ls st.evecs).map fun ver =>
      (ver.2.1, ver.2.2, { st with evecs := ver.1 })
  else some (l, ls, st)

/-- One full iteration of `implementPCA`'s parse loop (sigqc_implementpca.py
lines 90-115): the five marker branches are tested in source order against the
current row, each possibly consuming lines; the iteration returns the lines
still to be visited by the `for` loop and the updated state. -/
def parseStep (l : RefLine α) (ls : List (RefLine α)) (st : ParseState α) :
    Option (List (RefLine α) × ParseState α) := do
  let r1 ← stepAvg l ls st
  let r2 ← stepStd r1.1 r1.2.1 r1.2.2
  let r3 ← stepCorr r2.1 r2.2.1 r2.2.2
  let r4 ← stepEvals r3.1 r3.2.1 r3.2.2
  let r5 ← stepEvecs r4.1 r4.2.1 r4.2.2
  pure (r5.2.1, r5.2.2)

/-- The skip loop consumes at least the marker row: its remainder is strictly
shorter than its input.  Needed for termination of the parse loop. -/
theorem skipUntil_length (marker : String) :
    ∀ (ls : List (RefLine α)) (e : RefLine α) (rest : List (RefLine α)),
      skipUntil marker ls = some (e, rest) → rest.length < ls.length
  | [], e, rest => by simp [skipUntil]
  | l :: ls, e, rest => by
    simp only [skipUntil]
    split
    · intro h
      obtain ⟨rfl, rfl⟩ := Prod.mk.injEq .. ▸ Option.some.inj h
      exact Nat.lt_succ_self _
    · intro h
      exact Nat.lt_trans (skipUntil_length marker ls e rest h) (Nat.lt_succ_self _)

/-- A value section consumes at least its data and end-marker rows. -/
theorem scanSection_length (marker : String) (ls : List (RefLine α))
    (w : List α) (e : RefLine α) (rest : List (RefLine α))
    (h : scanSection marker ls = some (w, e, rest)) : rest.length < ls.length := by
  match ls with
  | [] => simp [scanSection] at h
  | r :: rs =>
    simp only [scanSection] at h
    cases hv : lineVec r with
    | none => rw [hv] at h; simp at h
    | some w0 =>
      rw [hv] at h
      obtain ⟨⟨e0, rest0⟩, hsk, heq⟩ := Option.map_eq_some'.mp h
      obtain ⟨rfl, rfl, rfl⟩ := Prod.mk.injEq .. ▸ heq
      exact skipUntil_length marker (r :: rs) e0 rest0 hsk

/-- The correlation-flag section consumes at least its end-marker row. -/
theorem scanFlag_length (ls : List (RefLine α))
    (s : String) (e : RefLine α) (rest : List (RefLine α))
    (h : scanFlag ls = some (s, e, rest)) : rest.length < ls.length := by
  match ls with
  | [] => simp [scanFlag] at h
  | r :: rs =>
    simp only [scanFlag] at h
    obtain ⟨⟨e0, rest0⟩, hsk, heq⟩ := Option.map_eq_some'.mp h
    obtain ⟨rfl, rfl, rfl⟩ := Prod.mk.injEq .. ▸ heq
    exact skipUntil_length "ENDCORRMATRIX" (r :: rs) e0 rest0 hsk

/-- The eigenvector section consumes at least its end-marker row. -/
theorem scanEvecs_length :
    ∀ (ls : List (RefLine α)) (acc w : List (List α)) (e : RefLine α)
      (rest : List (RefLine α)),
      scanEvecs ls acc = some (w, e, rest) → rest.length < ls.length
  | [], acc, w, e, rest => by simp [scanEvecs]
  | r :: rs, acc, w, e, rest => by
    simp only [scanEvecs]
    split
    · intro h
      obtain ⟨rfl, rfl, rfl⟩ := Prod.mk.injEq .. ▸ Option.some.inj h
      exact Nat.lt_succ_self _
    · cases hv : lineVec r with
      | none => intro h; simp at h
      | some w0 =>
        intro h
        exact Nat.lt_trans (scanEvecs_length rs (acc ++ [w0]) w e rest h)
          (Nat.lt_succ_self _)

/-- Each branch of one parse iteration leaves the remaining line list no
longer than it was (`stepAvg`). -/
theorem stepAvg_length (l : RefLine α) (ls : List (RefLine α)) (st : ParseState α)
    (e : RefLine α) (rest : List (RefLine α)) (st' : ParseState α)
    (h : stepAvg l ls st = some (e, rest, st')) : rest.length ≤ ls.length := by
  simp only [stepAvg] at h
  split at h
  · obtain ⟨⟨w0, e0, rest0⟩, hsc, heq⟩ := Option.map_eq_some'.mp h
    obtain ⟨rfl, rfl, rfl⟩ := Prod.mk.injEq .. ▸ heq
    exact Nat.le_of_lt (scanSection_length "ENDAVGVECTOR" ls w0 e0 rest0 hsc)
  · obtain ⟨rfl, rfl, rfl⟩ := Prod.mk.injEq .. ▸ Option.some.inj h
    exact Nat.le_refl _

/-- Each branch of one parse iteration leaves the remaining line list no
longer than it was (`stepStd`). -/
theorem stepStd_length (l : RefLine α) (ls : List (RefLine α)) (st : ParseState α)
    (e : RefLine α) (rest : List (RefLine α)) (st' : ParseState α)
    (h : stepStd l ls st = some (e, rest, st')) : rest.length ≤ ls.length := by
  simp only [stepStd] at h
  split at h
  · obtain ⟨⟨w0, e0, rest0⟩, hsc, heq⟩ := Option.map_eq_some'.mp h
    obtain ⟨rfl, rfl, rfl⟩ := Prod.mk.injEq .. ▸ heq
    exact Nat.le_of_lt (scanSection_length "ENDSTANDDEV" ls w0 e0 rest0 hsc)
  · obtain ⟨rfl, rfl, rfl⟩ := Prod.mk.injEq .. ▸ Option.some.inj h
    exact Nat.le_refl _

/-- Each branch of one parse iteration leaves the remaining line list no
longer than it was (`stepCorr`). -/
theorem stepCorr_length (l : RefLine α) (ls : List (RefLine α)) (st : ParseState α)
    (e : RefLine α) (rest : List (RefLine α)) (st' : ParseState α)
    (h : stepCorr l ls st = some (e, rest, st')) : rest.length ≤ ls.length := by
  simp only [stepCorr] at h
  split at h
  · obtain ⟨⟨s0, e0, rest0⟩, hsc, heq⟩ := Option.map_eq_some'.mp h
    obtain ⟨rfl, rfl, rfl⟩ := Prod.mk.injEq .. ▸ heq
    exact Nat.le_of_lt (scanFlag_length ls s0 e0 rest0 hsc)
  · obtain ⟨rfl, rfl, rfl⟩ := Prod.mk.injEq .. ▸ Option.some.inj h
    exact Nat.le_refl _

/-- Each branch of one parse iteration leaves the remaining line list no
longer than it was (`stepEvals`). -/
theorem stepEvals_length (l : RefLine α) (ls : List (RefLine α)) (st : ParseState α)
    (e : RefLine α) (rest : List (RefLine α)) (st' : ParseState α)
    (h : stepEvals l ls st = some (e, rest, st')) : rest.length ≤ ls.length := by
  simp only [stepEvals] at h
  split at h
  · obtain ⟨⟨w0, e0, rest0⟩, hsc, heq⟩ := Option.map_eq_some'.mp h
    obtain ⟨rfl, rfl, rfl⟩ := Prod.mk.injEq .. ▸ heq
    exact Nat.le_of_lt (scanSection_length "ENDEVALS" ls w0 e0 rest0 hsc)
  · obtain ⟨rfl, rfl, rfl⟩ := Prod.mk.injEq .. ▸ Option.some.inj h
    exact Nat.le_refl _

/-- Each branch of one parse iteration leaves the remaining line list no
longer than it was (`stepEvecs`). -/
theorem stepEvecs_length (l : RefLine α) (ls : List (RefLine α)) (st : ParseState α)
    (e : RefLine α) (rest : List (RefLine α)) (st' : ParseState α)
    (h : stepEvecs l ls st = some (e, rest, st')) : rest.length ≤ ls.length := by
  simp only [stepEvecs] at h
  split at h
  · obtain ⟨⟨w0, e0, rest0⟩, hsc, heq⟩ := Option.map_eq_some'.mp h
    obtain ⟨rfl, rfl, rfl⟩ := Prod.mk.injEq .. ▸ heq
    exact Nat.le_of_lt (scanEvecs_length ls st.evecs w0 e0 rest0 hsc)
  · obtain ⟨rfl, rfl, rfl⟩ := Prod.mk.injEq .. ▸ Option.some.inj h
    exact Nat.le_refl _

/-- One full parse iteration leaves the remaining line list no longer than it
was; this bounds the recursion of `parseRefLines`. -/
theorem parseStep_length (l : RefLine α) (ls : List (RefLine α)) (st : ParseState α)
    (rest : List (RefLine α)) (st' : ParseState α)
    (h : parseStep l ls st = some (rest, st')) : rest.length ≤ ls.length := by
  simp only [parseStep, bind, Option.bind_eq_some, pure] at h
  obtain ⟨⟨l1, ls1, st1⟩, h1, h⟩ := h
  obtain ⟨⟨l2, ls2, st2⟩, h2, h⟩ := h
  obtain ⟨⟨l3, ls3, st3⟩, h3, h⟩ := h
  obtain ⟨⟨l4, ls4, st4⟩, h4, h⟩ := h
  obtain ⟨⟨l5, ls5, st5⟩, h5, h⟩ := h
  obtain ⟨rfl, rfl⟩ := Prod.mk.injEq .. ▸ Option.some.inj h
  exact Nat.le_trans (stepEvecs_length l4 ls4 st4 l5 ls5 st5 h5)
    (Nat.le_trans (stepEvals_length l3 ls3 st3 l4 ls4 st4 h4)
      (Nat.le_trans (stepCorr_length l2 ls2 st2 l3 ls3 st3 h3)
        (Nat.le_trans (stepStd_length l1 ls1 st1 l2 ls2 st2 h2)
          (stepAvg_length l ls st l1 ls1 st1 h1))))

/-- Embedding of the outer `for row in f` loop of `implementPCA`'s reference
parse (sigqc_implementpca.py lines 90-115): iterate `parseStep` until the
lines are exhausted; `none` propagates a runtime error raised inside an
iteration (`ValueError` from `np.array` of a text row, or `StopIteration` from
`next(f)` at end of file). -/
def parseRefLines (ls : List (RefLine α)) (st : ParseState α) :
    Option (ParseState α) :=
  match ls with
  | [] => some st
  | l :: rest =>
    match h : parseStep l rest st with
    | none => none
    | some rs => parseRefLines rs.1 rs.2
termination_by ls.length
decreasing_by
  simp only [List.length_cons]
  exact Nat.lt_succ_of_le (parseStep_length _ _ _ _ _ (by rw [h]))

/-- Embedding of `implementPCA`'s whole reference-file parse (lines 86-115 of
sigqc_implementpca.py), starting from the source's initial state
(`avgvec = None`, `evals = None`, `evecs = []`, `stddev` and `corr_matrix`
unassigned). -/
def parseRefFile (ls : List (RefLine α)) : Option (ParseState α) :=
  parseRefLines ls ⟨none, none, none, none, []⟩

/-- Embedding of the snapshot-writing block of `storeReferenceData`
(sigqc_implementpca.py lines 219-236): fixed section markers in fixed order,
the flag row being Python's `str()` of the boolean (`"True"` / `"False"`),
and one row per eigenvector.  Numeric rows are kept as exact number lists
(the source's CSV float formatting round-trips values, which the spec treats
as equality within floating tolerance). -/
def storeReferenceLines (avgvector stddev : List α) (corr_matrix : Bool)
    (evals : List α) (evecs : List (List α)) : List (RefLine α) :=
  [RefLine.text "BEGINAVGVECTOR", RefLine.vec avgvector,
   RefLine.text "ENDAVGVECTOR",
   RefLine.text "BEGINSTANDDEV", RefLine.vec stddev,
   RefLine.text "ENDSTANDDEV",
   RefLine.text "ISCORRMATRIX",
   RefLine.text (if corr_matrix then "True" else "False"),
   RefLine.text "ENDCORRMATRIX",
   RefLine.text "BEGINEVALS", RefLine.vec evals, RefLine.text "ENDEVALS",
   RefLine.text "BEGINEVECS"] ++ evecs.map RefLine.vec ++
  [RefLine.text "ENDEVECS"]

/-- Runtime errors that the scoring block of `implementPCA` can actually
raise, for the missing-section analysis: `typeErr` models Python's
`TypeError` from arithmetic on `None`, `unboundLocalErr` models
`UnboundLocalError` from reading a never-assigned local, and `valueErr`
models numpy shape/parse errors.  The source defines no snapshot-specific
error class of its own. -/
inductive PyErr where
  | typeErr
  | unboundLocalErr
  | valueErr
deriving DecidableEq

variable [LinearOrderedField α]

/-- Embedding of numpy's broadcast subtraction `A - w` of a row vector from
every row of a 2-D array: defined when every row has the vector's length,
otherwise a shape `ValueError` (`none`). -/
def npSubBroadcast (A : List (List α)) (w : List α) : Option (List (List α)) :=
  if A.all fun r => r.length == w.length then
    some (A.map fun r => List.zipWith (fun x y => x - y) r w)
  else none

/-- Embedding of numpy's broadcast division `A / w` of a 2-D array by a row
vector: defined when every row has the vector's length, otherwise a shape
`ValueError` (`none`). -/
def npDivBroadcast (A : List (List α)) (w : List α) : Option (List (List α)) :=
  if A.all fun r => r.length == w.length then
    some (A.map fun r => List.zipWith (fun x y => x / y) r w)
  else none

/-- Embedding of `np.dot(A, B)` where `B` is the parsed list of eigenvector
rows: defined when `B` is a nonempty rectangular matrix whose row count
matches the row length of `A`, in which case entry `(i, c)` is
`∑ f, A i f * B f c`; any shape mismatch (including the empty `evecs` list
left by a missing eigenvector section) raises a `ValueError` (`none`). -/
def npDot2 (A B : List (List α)) : Option (List (List α)) :=
  match B with
  | [] => none
  | b0 :: _ =>
    if (A.all fun r => r.length == B.length) &&
       (B.all fun r => r.length == b0.length) then
      some (A.map fun r => (List.range b0.length).map fun c =>
        ((r.zip B).map fun xz => xz.1 * xz.2.getD c 0).sum)
    else none

/-- Embedding of the scoring block of `implementPCA` (sigqc_implementpca.py
lines 120-129) applied to a parse state, with Python's evaluation order of
`np.dot((dataset-avgvec)/stddev, evecs)` (line 127) and
`np.dot(dataset-avgvec, evecs)` (line 129): the flag local is read first
(unassigned → `UnboundLocalError`), then `dataset - avgvec` (a `None` value →
`TypeError`, shape mismatch → `ValueError`), then — only in the `'True'`
branch — the `stddev` local and the division, then the matrix product.  The
parsed eigenvalues are never read here. -/
def implementPCAScoreStep (st : ParseState α) (dataset : List (List α)) :
    Except PyErr (List (List α)) :=
  match st.corr with
  | none => .error .unboundLocalErr
  | some c =>
    if strIn "True" c then
      match st.avgvec with
      | none => .error .typeErr
      | some avg =>
        match npSubBroadcast dataset avg with
        | none => .error .valueErr
        | some centered =>
          match st.stddev with
          | none => .error .unboundLocalErr
          | some std =>
            match npDivBroadcast centered std with
            | none => .error .valueErr
            | some scaled =>
              match npDot2 scaled st.evecs with
              | none => .error .valueErr
              | some scores => .ok scores
    else
      match st.avgvec with
      | none => .error .typeErr
      | some avg =>
        match npSubBroadcast dataset avg with
        | none => .error .valueErr
        | some centered =>
          match npDot2 centered st.evecs with
          | none => .error .valueErr
          | some scores => .ok scores

end SnapshotCodec

section Helpers

/-- Helper: on a square input, `getTotalVariance` reduces to the scan-guarded
choice between the input's own diagonal sum and the covariance diagonal sum. -/
theorem getTotalVariance_square {α : Type} [LinearOrderedField α] {k : ℕ}
    (sqrtFn : α → α) (A : Matrix (Fin k) (Fin k) α) :
    getTotalVariance sqrtFn A =
      if isCovScan A then ∑ i, A i i
      else ∑ t, getCovariance sqrtFn A false true true t t := by
  rw [getTotalVariance, dif_pos rfl]
  rfl

/-- Helper: on a non-square input, `getTotalVariance` always takes the
raw-dataset path and sums the covariance diagonal. -/
theorem getTotalVariance_nonsquare {α : Type} [LinearOrderedField α] {m n : ℕ}
    (sqrtFn : α → α) (A : Matrix (Fin m) (Fin n) α) (hmn : m ≠ n) :
    getTotalVariance sqrtFn A = ∑ t, getCovariance sqrtFn A false true true t t := by
  rw [getTotalVariance, dif_neg hmn]

/-- Helper: the accumulation loop of `getCumPropVar` is the sum of the mapped
list on top of the initial accumulator. -/
theorem foldl_add_map_sum {α : Type} [LinearOrderedField α] {β : Type} (g : β → α) :
    ∀ (l : List β) (a : α), l.foldl (fun acc j => acc + g j) a = a + (l.map g).sum
  | [], a => by simp
  | b :: bs, a => by
    simp [foldl_add_map_sum g bs (a + g b), add_assoc]

/-- Helper: the eigenvector-section scan consumes exactly the numeric rows up
to the `ENDEVECS` marker, appending them to the accumulator. -/
theorem scanEvecs_app {α : Type} (E : List (List α)) :
    ∀ (acc : List (List α)) (rest : List (RefLine α)),
      scanEvecs (E.map RefLine.vec ++ RefLine.text "ENDEVECS" :: rest) acc =
        some (acc ++ E, RefLine.text "ENDEVECS", rest) := by
  induction E with
  | nil => intro acc rest; simp [scanEvecs, lineContains, lineVec]; decide
  | cons w E ih =>
    intro acc rest
    simp only [List.map_cons, List.cons_append, List.append_eq, scanEvecs,
      lineContains, lineVec]
    rw [if_neg (by simp [strIn, seqContains, seqStarts])]
    rw [ih (acc ++ [w]) rest]
    simp

end Helpers

/-- C1: the score operation of `implementPCA` computes, entrywise, the
projection of `(test_dataset − snapshot.mean) / snapshot.stddev` (when the
snapshot's correlation-flag text contains `True`) or of
`(test_dataset − snapshot.mean)` (otherwise) onto the snapshot's eigenvector
columns; only the snapshot's stored mean and stddev appear — no statistic of
the test dataset itself. -/
theorem implementPCAScores_uses_snapshot_stats :
    ∀ (u n p : ℕ) (dataset : Matrix (Fin u) (Fin n) ℚ) (avgvec stddev : Fin n → ℚ)
      (cm : String) (evecs : Matrix (Fin n) (Fin p) ℚ),
      implementPCAScores dataset avgvec stddev cm evecs =
        if strIn "True" cm then
          Matrix.of fun i c => ∑ f, ((dataset i f - avgvec f) / stddev f) * evecs f c
        else
          Matrix.of fun i c => ∑ f, (dataset i f - avgvec f) * evecs f c := by
  intro u n p dataset avgvec stddev cm evecs
  by_cases h : strIn "True" cm <;>
    simp only [implementPCAScores, h, if_true, if_false, Bool.false_eq_true] <;>
    ext i c <;>
    rw [Matrix.mul_apply] <;> rfl

/-- C2 (counterexample): for the square dataset `[[1,2],[3,4]]`, whose
covariance `[[2,2],[2,2]]` has eigenvalues exactly `(4, 0)` (exhibited by an
explicit similarity to `diagonal (4,0)`), `getCumPropVar` with all components
returns `4/5`, not `1`: the broken symmetry scan makes `getTotalVariance`
return the dataset's own diagonal sum `5` instead of the covariance trace `4`.
A second instance: for the constant non-square dataset `[[1,1],[1,1],[1,1]]`
(zero covariance, eigenvalues `(0,0)`) the result is the division-by-zero
fallback (`0` here, `nan` in Python), again not `1`. -/
theorem getCumPropVar_square_dataset_counterexample :
    getCovariance id (!![1,2; 3,4] : Matrix (Fin 2) (Fin 2) ℚ) false true true =
      !![1,1; 1,-1] * Matrix.diagonal ![4,0] * !![1/2,1/2; 1/2,-1/2] ∧
    (!![1,1; 1,-1] : Matrix (Fin 2) (Fin 2) ℚ) * !![1/2,1/2; 1/2,-1/2] = 1 ∧
    (!![1/2,1/2; 1/2,-1/2] : Matrix (Fin 2) (Fin 2) ℚ) * !![1,1; 1,-1] = 1 ∧
    getCumPropVar id (!![1,2; 3,4] : Matrix (Fin 2) (Fin 2) ℚ) ![4,0]
      (!![1,1; 1,-1] : Matrix (Fin 2) (Fin 2) ℚ) none ≠ 1 ∧
    getCovariance id (!![1,1; 1,1; 1,1] : Matrix (Fin 3) (Fin 2) ℚ) false true true =
      1 * Matrix.diagonal ![0,0] * 1 ∧
    getCumPropVar id (!![1,1; 1,1; 1,1] : Matrix (Fin 3) (Fin 2) ℚ) ![0,0]
      (!![1,0; 0,1] : Matrix (Fin 2) (Fin 2) ℚ) none ≠ 1 := by
  refine ⟨?_, ?_, ?_, ?_, ?_, ?_⟩
  · ext i j
    fin_cases i <;> fin_cases j <;>
      simp [getCovariance, colMeans, Matrix.mul_apply, Matrix.diagonal,
        Matrix.vecHead, Matrix.vecTail, Fin.sum_univ_succ] <;>
      norm_num
  · ext i j
    fin_cases i <;> fin_cases j <;>
      simp [Matrix.mul_apply, Fin.sum_univ_succ] <;> norm_num
  · ext i j
    fin_cases i <;> fin_cases j <;>
      simp [Matrix.mul_apply, Fin.sum_univ_succ] <;> norm_num
  · have h45 : getCumPropVar id (!![1,2; 3,4] : Matrix (Fin 2) (Fin 2) ℚ) ![4,0]
        (!![1,1; 1,-1] : Matrix (Fin 2) (Fin 2) ℚ) none = 4/5 := by
      rw [getCumPropVar, getTotalVariance_square id _, if_pos (by decide)]
      simp [List.finRange_succ, Fin.sum_univ_succ]
      norm_num
    rw [h45]
    norm_num
  · ext i j
    fin_cases i <;> fin_cases j <;>
      simp [getCovariance, colMeans, Matrix.mul_apply, Matrix.diagonal,
        Matrix.vecHead, Matrix.vecTail, Fin.sum_univ_succ] <;>
      norm_num
  · have h0 : getCumPropVar id (!![1,1; 1,1; 1,1] : Matrix (Fin 3) (Fin 2) ℚ) ![0,0]
        (!![1,0; 0,1] : Matrix (Fin 2) (Fin 2) ℚ) none = 0 := by
      rw [getCumPropVar, getTotalVariance_nonsquare id _ (by decide)]
      simp [getCovariance, colMeans, Matrix.mul_apply, List.finRange_succ,
        Fin.sum_univ_succ]
    rw [h0]
    norm_num

/-- C2 (amended): when the eigenvalues are exactly the eigenvalues of the
centered, scaled covariance (witnessed by a similarity `cov = P D Q` with
`Q P = 1`), all components are used, the dataset is NOT square (so
`getTotalVariance` takes the raw-dataset path), and the covariance trace is
nonzero, the cumulative proportion of variance is exactly 1. -/
theorem getCumPropVar_all_components_eq_one {α : Type} [LinearOrderedField α]
    {m n : ℕ} (sqrtFn : α → α) (D : Matrix (Fin m) (Fin n) α)
    (evals : Fin n → α) (evecs : Matrix (Fin n) (Fin n) α)
    (P Q : Matrix (Fin n) (Fin n) α) (hmn : m ≠ n)
    (_hPQ : P * Q = 1) (hQP : Q * P = 1)
    (hcov : getCovariance sqrtFn D false true true = P * Matrix.diagonal evals * Q)
    (htr : Matrix.trace (getCovariance sqrtFn D false true true) ≠ 0) :
    getCumPropVar sqrtFn D evals evecs none = 1 := by
  have hsum : ∑ j, evals j = Matrix.trace (getCovariance sqrtFn D false true true) := by
    rw [hcov, Matrix.trace_mul_cycle, hQP, Matrix.one_mul, Matrix.trace_diagonal]
  have htot : getTotalVariance sqrtFn D =
      Matrix.trace (getCovariance sqrtFn D false true true) := by
    rw [getTotalVariance_nonsquare sqrtFn D hmn]
    rfl
  rw [getCumPropVar]
  simp only [Option.getD_none]
  rw [htot]
  rw [List.take_of_length_le (by rw [List.length_finRange])]
  rw [foldl_add_map_sum, zero_add]
  rw [← Fin.sum_univ_def]
  rw [← Finset.sum_div, hsum, div_self htr]

/-- C2 (witness): the amended theorem applied to the non-square dataset
`[[1,2],[3,4],[5,6]]`, whose covariance `[[4,4],[4,4]]` has eigenvalues
`(8, 0)`. -/
theorem getCumPropVar_all_components_eq_one_witness :
    getCumPropVar id (!![1,2; 3,4; 5,6] : Matrix (Fin 3) (Fin 2) ℚ) ![8,0]
      !![1,1; 1,-1] none = 1 :=
  getCumPropVar_all_components_eq_one id !![1,2; 3,4; 5,6] ![8,0] !![1,1; 1,-1]
    !![1,1; 1,-1] !![1/2,1/2; 1/2,-1/2] (by decide)
    (by
      ext i j
      fin_cases i <;> fin_cases j <;>
        simp [Matrix.mul_apply, Fin.sum_univ_succ] <;> norm_num)
    (by
      ext i j
      fin_cases i <;> fin_cases j <;>
        simp [Matrix.mul_apply, Fin.sum_univ_succ] <;> norm_num)
    (by
      ext i j
      fin_cases i <;> fin_cases j <;>
        simp [getCovariance, colMeans, Matrix.mul_apply, Matrix.diagonal,
          Matrix.vecHead, Matrix.vecTail, Fin.sum_univ_succ] <;>
        norm_num)
    (by
      simp [Matrix.trace, Matrix.diag, getCovariance, colMeans, Matrix.mul_apply,
        Fin.sum_univ_succ]
      norm_num)

/-- C3: evaluation of `getTotalVariance` at the square but asymmetric matrix
`[[0,2],[0,0]]` (its cells `0 1` and `1 0` differ).  The broken scan — the
`break` exits only the inner loop and the flag, once set by the always-equal
diagonal comparison, is never reset — classifies it as a covariance matrix,
so the function returns `0`, the input's own diagonal sum; the intended
behaviour described by the claim (treat an asymmetric square input as a raw
dataset) would return `2`, the diagonal sum of its covariance. -/
theorem getTotalVariance_misclassifies_asymmetric_square :
    (!![0,2; 0,0] : Matrix (Fin 2) (Fin 2) ℚ) 0 1 ≠
      (!![0,2; 0,0] : Matrix (Fin 2) (Fin 2) ℚ) 1 0 ∧
    isCovScan (!![0,2; 0,0] : Matrix (Fin 2) (Fin 2) ℚ) = true ∧
    getTotalVariance id (!![0,2; 0,0] : Matrix (Fin 2) (Fin 2) ℚ) = 0 ∧
    (∑ t, getCovariance id (!![0,2; 0,0] : Matrix (Fin 2) (Fin 2) ℚ)
      false true true t t) = 2 := by
  refine ⟨by decide, by decide, ?_, ?_⟩
  · rw [getTotalVariance_square id _, if_pos (by decide)]
    simp [Fin.sum_univ_succ]
  · simp [getCovariance, colMeans, Matrix.mul_apply, Fin.sum_univ_succ]
    norm_num

/-- C4: `getPCScores` ignores its `n_pcs` parameter entirely — the result is
identical for every pair of values — and at the concrete failing input
(2×2 dataset, identity eigenvector matrix, `n_pcs = 1`) it still returns the
full 2-column mean-centered product instead of a single column. -/
theorem getPCScores_ignores_n_pcs :
    (∀ (m n k p : ℕ) (D : Matrix (Fin m) (Fin n) ℚ) (ev : Fin k → ℚ)
        (E : Matrix (Fin n) (Fin p) ℚ) (o₁ o₂ : Option ℕ),
      getPCScores D ev E o₁ = getPCScores D ev E o₂) ∧
    getPCScores (!![0,0; 2,2] : Matrix (Fin 2) (Fin 2) ℚ) ![0,0] !![1,0; 0,1]
      (some 1) = !![-1,-1; 1,1] := by
  refine ⟨fun _ _ _ _ _ _ _ _ _ => rfl, ?_⟩
  ext i j
  fin_cases i <;> fin_cases j <;>
    simp [getPCScores, colMeans, Matrix.mul_apply, Fin.sum_univ_succ] <;>
    norm_num

/-- C5: evaluation of the H-Method total-eigenvector computation at the
dataset `[[0,1],[2,0]]`: its unscaled uncentered covariance is the diagonal
matrix `[[4,0],[0,1]]`, of which `(1,4)` paired with the eigenvector columns
`[[0,1],[1,0]]` is a genuine ascending unit-norm eigensystem; on it the
code's `np.sum(..., axis=0)` of the weighted eigenvector matrix yields
`(1,4)`, whereas the sum of the weighted eigenvector columns described by the
spec yields `(4,1)` — different vectors of the same magnitude `√17`, so the
normalized total eigenvectors differ as well. -/
theorem hMethod_total_evec_wrong_axis :
    getCovariance id (!![0,1; 2,0] : Matrix (Fin 2) (Fin 2) ℚ) false false false =
      !![4,0; 0,1] ∧
    (!![4,0; 0,1] : Matrix (Fin 2) (Fin 2) ℚ) * !![0,1; 1,0] =
      !![0,1; 1,0] * Matrix.diagonal ![1,4] ∧
    (![1,4] : Fin 2 → ℚ) 0 ≤ ![1,4] 1 ∧
    (∑ r, (!![0,1; 1,0] : Matrix (Fin 2) (Fin 2) ℚ) r 0 ^ 2) = 1 ∧
    (∑ r, (!![0,1; 1,0] : Matrix (Fin 2) (Fin 2) ℚ) r 1 ^ 2) = 1 ∧
    hMethodTotalEvec (hMethodWeightEvecs ![1,4]
      (!![0,1; 1,0] : Matrix (Fin 2) (Fin 2) ℚ)) = ![1,4] ∧
    totalEvecSpecSum ![1,4] (!![0,1; 1,0] : Matrix (Fin 2) (Fin 2) ℚ) = ![4,1] ∧
    hMethodTotalEvec (hMethodWeightEvecs ![1,4]
      (!![0,1; 1,0] : Matrix (Fin 2) (Fin 2) ℚ)) ≠
      totalEvecSpecSum ![1,4] (!![0,1; 1,0] : Matrix (Fin 2) (Fin 2) ℚ) ∧
    (∑ c, hMethodTotalEvec (hMethodWeightEvecs ![1,4]
      (!![0,1; 1,0] : Matrix (Fin 2) (Fin 2) ℚ)) c ^ 2) = 17 ∧
    (∑ f, totalEvecSpecSum ![1,4]
      (!![0,1; 1,0] : Matrix (Fin 2) (Fin 2) ℚ) f ^ 2) = 17 := by
  refine ⟨?_, ?_, ?_, ?_, ?_, ?_, ?_, ?_, ?_, ?_⟩
  · ext i j
    fin_cases i <;> fin_cases j <;>
      simp [getCovariance, Matrix.mul_apply, Fin.sum_univ_succ] <;> norm_num
  · ext i j
    fin_cases i <;> fin_cases j <;>
      simp [Matrix.mul_apply, Matrix.diagonal, Matrix.vecHead, Matrix.vecTail,
        Fin.sum_univ_succ] <;> norm_num
  · norm_num
  · simp [Fin.sum_univ_succ]
  · simp [Fin.sum_univ_succ]
  · funext c
    fin_cases c <;> simp [hMethodTotalEvec, hMethodWeightEvecs, Fin.sum_univ_succ]
  · funext f
    fin_cases f <;> simp [totalEvecSpecSum, Fin.sum_univ_succ]
  · intro h
    have h0 := congrFun h 0
    simp [hMethodTotalEvec, hMethodWeightEvecs, totalEvecSpecSum,
      Fin.sum_univ_succ] at h0
  · simp [hMethodTotalEvec, hMethodWeightEvecs, Fin.sum_univ_succ]
    norm_num
  · simp [totalEvecSpecSum, Fin.sum_univ_succ]
    norm_num

/-- C6: `sortEigen` applies one and the same permutation to the eigenvalue
vector and to the eigenvector columns (a pure permutation of the paired
entries, each eigenvalue keeping its column), and the output eigenvalues are
non-increasing. -/
theorem sortEigen_is_permutation_and_descending :
    ∀ (k n : ℕ) (evals : Fin k → ℚ) (evecs : Matrix (Fin n) (Fin k) ℚ),
      ∃ σ : Equiv.Perm (Fin k),
        (sortEigen evals evecs).1 = (fun j => evals (σ j)) ∧
        (sortEigen evals evecs).2 = Matrix.of (fun i j => evecs i (σ j)) ∧
        Antitone (sortEigen evals evecs).1 := by
  intro k n evals evecs
  refine ⟨Fin.revPerm.trans (Tuple.sort evals), rfl, rfl, fun i j hij => ?_⟩
  exact Tuple.monotone_sort evals (Fin.rev_le_rev.mpr hij)

/-- C9: with `corr_matrix = false`, `scale_by_nrows = true`,
`center_around_mean = true`, `getCovariance` is entrywise
`(Aᵀ A) / (m − 1)` for the column-mean-centered dataset `A`; and on the
3×2 dataset `[[1,2],[3,4],[5,6]]` it equals `[[4,4],[4,4]]` exactly. -/
theorem getCovariance_formula_and_example :
    (∀ (m n : ℕ) (sqrtFn : ℚ → ℚ) (D : Matrix (Fin m) (Fin n) ℚ),
      getCovariance sqrtFn D false true true =
        Matrix.of fun s t =>
          ((Matrix.of fun i j => D i j - colMeans D j).transpose *
            (Matrix.of fun i j => D i j - colMeans D j)) s t / ((m : ℚ) - 1)) ∧
    getCovariance id (!![1,2; 3,4; 5,6] : Matrix (Fin 3) (Fin 2) ℚ)
      false true true = !![4,4; 4,4] := by
  constructor
  · intro m n sqrtFn D
    rfl
  · ext i j
    fin_cases i <;> fin_cases j <;>
      simp [getCovariance, colMeans, Matrix.mul_apply, Fin.sum_univ_succ] <;>
      norm_num

/-- C10: with `center_around_mean = false` the correlation flag of
`getCovariance` is ignored — the `corr_matrix = true` and
`corr_matrix = false` results coincide for every dataset, every square-root
function and every value of `scale_by_nrows`, because the standard-deviation
division sits inside the centering branch. -/
theorem getCovariance_corr_flag_ignored_without_centering :
    ∀ (m n : ℕ) (sqrtFn : ℚ → ℚ) (D : Matrix (Fin m) (Fin n) ℚ) (s : Bool),
      getCovariance sqrtFn D true s false = getCovariance sqrtFn D false s false :=
  fun _ _ _ _ _ => rfl

/-- C7: round-trip of the reference-snapshot codec — parsing the lines
written by `storeReferenceData` recovers the mean vector, the stddev vector,
the flag text (Python's `str` of the boolean), the eigenvalues and the
eigenvector rows exactly, for every snapshot; and the substring test
`'True' in flag_text` used by the scoring step recovers the original boolean
flag. -/
theorem storeReferenceData_roundtrip :
    (∀ (a s e : List ℚ) (c : Bool) (E : List (List ℚ)),
      parseRefFile (storeReferenceLines a s c e E) =
        some ⟨some a, some s, some (if c then "True" else "False"), some e, E⟩) ∧
    (∀ c : Bool, strIn "True" (if c then "True" else "False") = c) := by
  constructor
  · intro a s e c E
    cases c <;>
    simp +decide [parseRefFile, storeReferenceLines, parseRefLines, parseStep,
      stepAvg, stepStd, stepCorr, stepEvals, stepEvecs, scanSection, scanFlag,
      skipUntil, lineContains, lineVec, scanEvecs_app] <;>
    rw [scanEvecs_app E [] []] <;>
    simp [parseRefLines]
  · intro c
    cases c <;> decide

/-- C8 (counterexample): a snapshot text with every section except the
eigenvalues section (`BEGINEVALS`/`ENDEVALS` absent — each remaining line is
free of that marker) parses to a state with `evals = none`, and the scoring
step then COMPLETES successfully instead of failing: the parsed eigenvalues
are never used by the score computation, so no error of any kind — let alone
a deliberate snapshot error — is raised. -/
theorem implementPCA_missing_evals_completes :
    parseRefFile [RefLine.text "BEGINAVGVECTOR", RefLine.vec [(0:ℚ),0],
      RefLine.text "ENDAVGVECTOR", RefLine.text "BEGINSTANDDEV", RefLine.vec [1,1],
      RefLine.text "ENDSTANDDEV", RefLine.text "ISCORRMATRIX", RefLine.text "False",
      RefLine.text "ENDCORRMATRIX", RefLine.text "BEGINEVECS", RefLine.vec [1,0],
      RefLine.vec [0,1], RefLine.text "ENDEVECS"] =
      some ⟨some [0,0], some [1,1], some "False", none, [[1,0],[0,1]]⟩ ∧
    (∀ l ∈ ([RefLine.text "BEGINAVGVECTOR", RefLine.vec [(0:ℚ),0],
      RefLine.text "ENDAVGVECTOR", RefLine.text "BEGINSTANDDEV", RefLine.vec [1,1],
      RefLine.text "ENDSTANDDEV", RefLine.text "ISCORRMATRIX", RefLine.text "False",
      RefLine.text "ENDCORRMATRIX", RefLine.text "BEGINEVECS", RefLine.vec [1,0],
      RefLine.vec [0,1], RefLine.text "ENDEVECS"] : List (RefLine ℚ)),
        lineContains "BEGINEVALS" l = false) ∧
    implementPCAScoreStep
      (⟨some [0,0], some [1,1], some "False", none, [[1,0],[0,1]]⟩ : ParseState ℚ)
      [[1,2]] = .ok [[1,2]] := by
  refine ⟨?_, by decide, ?_⟩
  · simp +decide [parseRefFile, parseRefLines, parseStep, stepAvg,
      stepStd, stepCorr, stepEvals, stepEvecs, scanSection, scanFlag, scanEvecs,
      skipUntil, lineContains, lineVec]
  · norm_num +decide [implementPCAScoreStep, npSubBroadcast, npDot2, List.range_succ]

/-- C8 (amended): the scoring step after deserialization fails with an
unbound-local error when the flag section was absent, with a `None`-arithmetic
type error when the flag is present but the mean-vector section was absent,
with an unbound-local error on the stddev read when the correlation branch is
taken and the stddev section was absent, and with a shape error when the
eigenvector section was absent (empty `evecs`); it is entirely independent of
the parsed eigenvalues (so a missing eigenvalues section causes no failure),
and it decides the correlation branch by substring match on the literal
`True` in the captured flag text.  No snapshot-specific error exists. -/
theorem implementPCAScoreStep_error_modes :
    (∀ (st : ParseState ℚ) (ds : List (List ℚ)), st.corr = none →
        implementPCAScoreStep st ds = .error .unboundLocalErr) ∧
    (∀ (st : ParseState ℚ) (ds : List (List ℚ)) (c : String), st.corr = some c →
        st.avgvec = none → implementPCAScoreStep st ds = .error .typeErr) ∧
    (∀ (st : ParseState ℚ) (ds : List (List ℚ)) (c : String) (avg : List ℚ)
        (centered : List (List ℚ)), st.corr = some c → strIn "True" c = true →
        st.avgvec = some avg → npSubBroadcast ds avg = some centered →
        st.stddev = none →
        implementPCAScoreStep st ds = .error .unboundLocalErr) ∧
    (∀ (st : ParseState ℚ) (ds : List (List ℚ)) (c : String) (avg : List ℚ)
        (centered : List (List ℚ)), st.corr = some c → strIn "True" c = false →
        st.avgvec = some avg → npSubBroadcast ds avg = some centered →
        st.evecs = [] →
        implementPCAScoreStep st ds = .error .valueErr) ∧
    (∀ (st : ParseState ℚ) (ds : List (List ℚ)) (ev : Option (List ℚ)),
        implementPCAScoreStep { st with evals := ev } ds =
          implementPCAScoreStep st ds) ∧
    strIn "True" "True" = true ∧ strIn "True" "False" = false ∧
    strIn "True" "XXTrueYY" = true := by
  refine ⟨?_, ?_, ?_, ?_, fun _ _ _ => rfl, by decide, by decide, by decide⟩
  · intro st ds h
    simp [implementPCAScoreStep, h]
  · intro st ds c hc h
    simp [implementPCAScoreStep, hc, h]
  · intro st ds c avg centered hc htrue havg hsub hstd
    simp [implementPCAScoreStep, hc, htrue, havg, hsub, hstd]
  · intro st ds c avg centered hc hfalse havg hsub hev
    simp [implementPCAScoreStep, hc, hfalse, havg, hsub, hev, npDot2]

/-- C8 (witness): the amended error-mode theorem applied at concrete parse
states — one with an unassigned flag, one with a flag but no mean vector. -/
theorem implementPCAScoreStep_error_modes_witness :
    implementPCAScoreStep (⟨none, none, none, none, []⟩ : ParseState ℚ) [] =
      .error .unboundLocalErr ∧
    implementPCAScoreStep (⟨none, none, some "False", none, []⟩ : ParseState ℚ) [] =
      .error .typeErr ∧
    implementPCAScoreStep (⟨some [0], none, some "True", none, []⟩ : ParseState ℚ) [] =
      .error .unboundLocalErr ∧
    implementPCAScoreStep (⟨some [0], none, some "False", none, []⟩ : ParseState ℚ) [] =
      .error .valueErr ∧
    implementPCAScoreStep
      (⟨some [0,0], some [1,1], some "False", some [9,9], [[1,0],[0,1]]⟩ : ParseState ℚ)
      [[1,2]] =
      implementPCAScoreStep
        (⟨some [0,0], some [1,1], some "False", none, [[1,0],[0,1]]⟩ : ParseState ℚ)
        [[1,2]] :=
  ⟨implementPCAScoreStep_error_modes.1 _ _ rfl,
   implementPCAScoreStep_error_modes.2.1 _ _ "False" rfl rfl,
   implementPCAScoreStep_error_modes.2.2.1 _ [] "True" [0] [] rfl (by decide) rfl rfl rfl,
   implementPCAScoreStep_error_modes.2.2.2.1 _ [] "False" [0] [] rfl (by decide)
     rfl rfl rfl,
   implementPCAScoreStep_error_modes.2.2.2.2.1
     (⟨some [0,0], some [1,1], some "False", none, [[1,0],[0,1]]⟩ : ParseState ℚ)
     [[1,2]] (some [9,9])⟩
